import Mathlib

set_option linter.unusedVariables false

/-!
Verification of the progress/unlock state-derivation engine of the
zane-omega e-learning front-end.

The TypeScript sources are shallowly embedded:
  * `LessonUnlock` models `lessonUnlock` (the `LessonUnlockSystem` class):
    dates are modelled at day granularity as `Int` day numbers counted from
    1970-01-01 (the code strips time-of-day to midnight before every
    comparison, so a day number is exactly the information it uses), and
    `console.warn` output is modelled as an explicit `warnings` list.
  * `Csv` models the csv module (`parseCSV`, `parseTaskRows`,
    `organizeTasks`-level data types, `calculateProgress`,
    `markTaskCompleted`); a parsed task-row object is modelled as the
    ordered list of `header ↦ value` assignments performed by the code,
    with JavaScript's number/string dynamic values as `JsVal`, and
    `parseInt` as `jsParseInt` (whitespace skip, optional sign, optional
    hex prefix, longest digit prefix, exact integer arithmetic).
  * `Learning` models `learning.ts` (its own `parseCSV`, `organizeQuiz`,
    `markTopicWatched`).
  * `ChapterPage` models the completion logic of the chapter page
    component (`getLessonCompletedTasks`, the `isLessonFullyComplete`
    closure and the per-lesson body of `computeLessonLevelCompletion`),
    with the browser-storage reads passed in as explicit arguments.

Browser storage is modelled as `Store := String → List String`: a total map
from storage keys to the JSON-decoded string lists the code stores there
(an absent key reads as `[]`, matching the `|| '[]'` / `? : []` defaults).
-/

/-- Browser storage scope (localStorage or sessionStorage), modelled as a
total map from keys to the JSON-decoded id lists the code keeps there. -/
abbrev Store := String → List String

/-- Model of JavaScript `String.prototype.trim`: strip leading and
trailing whitespace (written over the character list so that it evaluates
inside the kernel; the core string-trimming function is extensionally the
same but is implemented with byte positions that do not reduce). -/
def jsTrim (s : String) : String :=
  String.mk (((s.data.dropWhile Char.isWhitespace).reverse.dropWhile
    Char.isWhitespace).reverse)

/-- Model of JavaScript `String.prototype.toUpperCase` on the ASCII
letters the quiz data uses. -/
def jsToUpper (s : String) : String := String.mk (s.data.map Char.toUpper)

def jsSplitAux (sep : Char) : List Char → String → List String
  | [], cur => [cur]
  | c :: rest, cur =>
    if c = sep then cur :: jsSplitAux sep rest ""
    else jsSplitAux sep rest (cur.push c)

/-- Model of JavaScript `String.prototype.split` with a one-character
separator: empty pieces are kept, and the empty string splits to
`[""]`. -/
def jsSplit (sep : Char) (s : String) : List String := jsSplitAux sep s.data ""

namespace LessonUnlock

/-- Day-of-week of a day number counted from 1970-01-01 (a Thursday);
0 = Sunday, matching JavaScript `Date.prototype.getDay`. -/
def dayOfWeek (d : Int) : Int := (d + 4) % 7

/-- Days since 1970-01-01 of a proleptic-Gregorian civil date, so concrete
dates such as 2025-07-24 can be named in statements. -/
def daysFromCivil (y m d : Int) : Int :=
  let y := if m ≤ 2 then y - 1 else y
  let era := (if 0 ≤ y then y else y - 399) / 400
  let yoe := y - era * 400
  let mp := (m + 9) % 12
  let doy := (153 * mp + 2) / 5 + d - 1
  let doe := yoe * 365 + yoe / 4 - yoe / 100 + doy
  era * 146097 + doe - 719468

def lessonIdStr (c n : Nat) : String :=
  "les_" ++ toString c ++ "_" ++ toString n

/-- `generateLessonIds`: chapter 1 has 9 lessons, chapters 2-12 have 10
each except chapter 5 which has 11, ids of the form `les_{chapter}_{n}`. -/
def generateLessonIds : List String :=
  ((List.range 9).map (fun i => lessonIdStr 1 (i + 1))) ++
  ((List.range 11).flatMap (fun k =>
    let chapter := k + 2
    let lessonsInChapter := if chapter = 5 then 11 else 10
    (List.range lessonsInChapter).map (fun j => lessonIdStr chapter (j + 1))))

/-- The `do { currentDate += 1 } while (currentDate is a Sunday)` loop of
`generateUnlockSchedule`, with fuel 7: at most one skip is ever taken since
two consecutive days are never both Sundays. -/
def skipSundays : Nat → Int → Int
  | 0, d => d
  | fuel + 1, d => if dayOfWeek d = 0 then skipSundays fuel (d + 1) else d

def advanceNonSunday (d : Int) : Int := skipSundays 7 (d + 1)

/-- The non-first-lesson arm of the `forEach` in `generateUnlockSchedule`:
each lesson advances the running date to the next non-Sunday day. -/
def scheduleAux (cur : Int) : List String → List (String × Int)
  | [] => []
  | id :: rest =>
    let d := advanceNonSunday cur
    (id, d) :: scheduleAux d rest

/-- `generateUnlockSchedule`: the first lesson unlocks on the course start
date; each later lesson unlocks on the next non-Sunday calendar day after
the previous lesson's unlock date. -/
def generateUnlockSchedule (startDate : Int) : List (String × Int) :=
  match generateLessonIds with
  | [] => []
  | first :: rest => (first, startDate) :: scheduleAux startDate rest

/-- Start date of the exported singleton:
`new LessonUnlockSystem('2025-07-24')`. -/
def courseStartDay : Int := daysFromCivil 2025 7 24

/-- Result of `isLessonUnlockedById`: the returned boolean together with
the `console.warn` diagnostics emitted on the way. -/
structure UnlockResult where
  result : Bool
  warnings : List String

/-- `isLessonUnlockedById`: a lesson missing from the schedule is treated
as unlocked (fail-open) with a warning; otherwise the reference date is
compared with the lesson's unlock date at day granularity. -/
def isLessonUnlockedById (schedule : List (String × Int)) (lessonId : String)
    (currentDate : Int) : UnlockResult :=
  match schedule.lookup lessonId with
  | none => ⟨true, ["Lesson " ++ lessonId ++ " not found in unlock schedule"]⟩
  | some unlockDate => ⟨decide (unlockDate ≤ currentDate), []⟩

/-- Boolean strict-increase check over adjacent elements, used to decide
the monotonicity of the concrete 120-entry schedule by evaluation. -/
def chainLtB : List Int → Bool
  | [] => true
  | [_] => true
  | a :: b :: rest => decide (a < b) && chainLtB (b :: rest)

end LessonUnlock

namespace Csv

/-- A dynamic JavaScript value stored in a parsed row object: every field
is a string except `xp`, which `parseTaskRows` coerces to a number. -/
inductive JsVal where
  | str (s : String)
  | num (n : Int)
  deriving DecidableEq

/-- Character-level state machine of `parseCSV` (csv module): quoted
fields, doubled-quote escapes, comma separators and CR/LF/CRLF row breaks
outside quotes. One unit of fuel is spent per loop iteration; the machine
is always run with fuel equal to the character count and every iteration
consumes at least one character, so the fuel never runs out (the zero-fuel
arm equals the end-of-input flush and is unreachable). -/
def parseCSVAux : Nat → Bool → String → List String → List (List String) →
    List Char → List (List String)
  | _, _, curField, curRow, rows, [] =>
    if curField ≠ "" ∨ curRow ≠ [] then rows ++ [curRow ++ [curField]] else rows
  | fuel + 1, inQuotes, curField, curRow, rows, '"' :: rest =>
    if inQuotes then
      match rest with
      | '"' :: rest2 => parseCSVAux fuel inQuotes (curField.push '"') curRow rows rest2
      | _ => parseCSVAux fuel (!inQuotes) curField curRow rows rest
    else parseCSVAux fuel (!inQuotes) curField curRow rows rest
  | fuel + 1, inQuotes, curField, curRow, rows, ',' :: rest =>
    if inQuotes then parseCSVAux fuel inQuotes (curField.push ',') curRow rows rest
    else parseCSVAux fuel inQuotes "" (curRow ++ [curField]) rows rest
  | fuel + 1, inQuotes, curField, curRow, rows, '\r' :: rest =>
    if inQuotes then parseCSVAux fuel inQuotes (curField.push '\r') curRow rows rest
    else
      match rest with
      | '\n' :: rest2 =>
        parseCSVAux fuel inQuotes "" [] (rows ++ [curRow ++ [curField]]) rest2
      | _ => parseCSVAux fuel inQuotes "" [] (rows ++ [curRow ++ [curField]]) rest
  | fuel + 1, inQuotes, curField, curRow, rows, '\n' :: rest =>
    if inQuotes then parseCSVAux fuel inQuotes (curField.push '\n') curRow rows rest
    else parseCSVAux fuel inQuotes "" [] (rows ++ [curRow ++ [curField]]) rest
  | fuel + 1, inQuotes, curField, curRow, rows, c :: rest =>
    parseCSVAux fuel inQuotes (curField.push c) curRow rows rest
  | 0, _, curField, curRow, rows, _ :: _ =>
    if curField ≠ "" ∨ curRow ≠ [] then rows ++ [curRow ++ [curField]] else rows

/-- The trailing `while` loop of both CSV parsers: drop trailing rows that
consist of a single empty field. -/
def trimTrailingEmptyRows (rows : List (List String)) : List (List String) :=
  (rows.reverse.dropWhile (fun r => r == [""])).reverse

/-- `parseCSV` of the csv module: strip a leading BOM, run the character
machine, flush the leftover field/row, drop trailing empty rows. -/
def parseCSV (csvText : String) : List (List String) :=
  let cs := match csvText.data with
    | c :: rest => if c = '\uFEFF' then rest else c :: rest
    | [] => []
  trimTrailingEmptyRows (parseCSVAux cs.length false "" [] [] cs)

def decDigit? (c : Char) : Option Nat :=
  if '0' ≤ c ∧ c ≤ '9' then some (c.toNat - '0'.toNat) else none

def hexDigit? (c : Char) : Option Nat :=
  if '0' ≤ c ∧ c ≤ '9' then some (c.toNat - '0'.toNat)
  else if 'a' ≤ c ∧ c ≤ 'f' then some (c.toNat - 'a'.toNat + 10)
  else if 'A' ≤ c ∧ c ≤ 'F' then some (c.toNat - 'A'.toNat + 10)
  else none

def takeDigits (digitVal : Char → Option Nat) : List Char → List Nat
  | [] => []
  | c :: rest =>
    match digitVal c with
    | some d => d :: takeDigits digitVal rest
    | none => []

/-- Model of JavaScript `parseInt(s)` (radix argument omitted): skip
leading whitespace, read an optional sign, honour a `0x`/`0X` hex prefix,
parse the longest digit prefix, `none` when no digit is found (NaN).
Arithmetic is exact (double rounding of huge literals is not modelled). -/
def jsParseInt (s : String) : Option Int :=
  let cs := s.data.dropWhile Char.isWhitespace
  let signBody : Int × List Char :=
    match cs with
    | '-' :: rest => (-1, rest)
    | '+' :: rest => (1, rest)
    | _ => (1, cs)
  let baseDigits : Nat × List Nat :=
    match signBody.2 with
    | '0' :: 'x' :: rest => (16, takeDigits hexDigit? rest)
    | '0' :: 'X' :: rest => (16, takeDigits hexDigit? rest)
    | body => (10, takeDigits decDigit? body)
  if baseDigits.2.isEmpty then none
  else some (signBody.1 * (baseDigits.2.foldl (fun acc d => acc * baseDigits.1 + d) 0 : Nat))

/-- The `parseInt(value) || 0` coercion of `parseTaskRows`: NaN, 0 and -0
are all falsy and give 0. -/
def parseIntOr0 (s : String) : Int :=
  match jsParseInt s with
  | none => 0
  | some n => if n = 0 then 0 else n

/-- The `rawHeaders.forEach((header, index) => ...)` loop of
`parseTaskRows`: one `header ↦ value` assignment per header, with the
`xp` column coerced through `parseInt(value) || 0` and `row[index] ?? ''`
supplying a missing cell. -/
def buildAssigns (row : List String) : Nat → List String → List (String × JsVal)
  | _, [] => []
  | i, header :: rest =>
    (header,
      if header = "xp" then JsVal.num (parseIntOr0 (row.getD i ""))
      else JsVal.str (row.getD i "")) :: buildAssigns row (i + 1) rest

/-- Property read on a row object built from assignments: the last
assignment to a key wins, a never-assigned key reads as `none`. -/
def objGet (obj : List (String × JsVal)) (key : String) : Option JsVal :=
  ((obj.filter (fun p => p.1 == key)).getLast?).map Prod.snd

/-- One row of `parseTaskRows`: perform all header assignments, then
default `instructions` to the empty string when the column is absent. -/
def buildTask (headers : List String) (row : List String) : List (String × JsVal) :=
  let assigns := buildAssigns row 0 headers
  if assigns.any (fun p => p.1 == "instructions") then assigns
  else assigns ++ [("instructions", JsVal.str "")]

/-- `parseTaskRows`: headers come from the trimmed first row; every later
row becomes one task-row object. -/
def parseTaskRows (csvData : List (List String)) : List (List (String × JsVal)) :=
  match csvData with
  | [] => []
  | header :: rows => rows.map (buildTask (header.map jsTrim))

/-- The `resources` object of a `Task`. -/
structure TaskResources where
  pdfs : List String
  forms : List String
  answerKey : String
  deriving DecidableEq

/-- The `Task` interface of the csv module. -/
structure Task where
  id : String
  title : String
  scenario : String
  lessonId : String
  chapterId : String
  courseId : String
  resources : TaskResources
  xp : Int
  instructions : Option String
  deriving DecidableEq

/-- The `Lesson` interface of the csv module. -/
structure Lesson where
  id : String
  name : String
  chapterId : String
  courseId : String
  tasks : List Task
  deriving DecidableEq

/-- The record returned by `calculateProgress`. JavaScript float division
is modelled exactly over `ℚ`. -/
structure ProgressStats where
  totalTasks : Nat
  completedTasks : Nat
  completionPercentage : ℚ
  totalXP : Int
  earnedXP : Int
  xpPercentage : ℚ

/-- `calculateProgress`: counts and XP come only from the tasks of the
given list whose id occurs in `completedTaskIds`; percentages are 0 when
the corresponding total is 0. -/
def calculateProgress (tasks : List Task) (completedTaskIds : List String) : ProgressStats :=
  let totalTasks := tasks.length
  let totalXP := tasks.foldl (fun sum task => sum + task.xp) 0
  let completedTasksInThisSet := tasks.filter (fun task => completedTaskIds.contains task.id)
  let completedTasks := completedTasksInThisSet.length
  let earnedXP := completedTasksInThisSet.foldl (fun sum task => sum + task.xp) 0
  { totalTasks := totalTasks
    completedTasks := completedTasks
    completionPercentage :=
      if totalTasks > 0 then ((completedTasks : ℚ) / (totalTasks : ℚ)) * 100 else 0
    totalXP := totalXP
    earnedXP := earnedXP
    xpPercentage :=
      if totalXP > 0 then ((earnedXP : ℚ) / (totalXP : ℚ)) * 100 else 0 }

/-- `getCompletedTasks`: read the per-course completed-task-id list
(absent key reads as the empty list). -/
def getCompletedTasks (store : Store) (courseId : String) : List String :=
  store ("course_" ++ courseId ++ "_completed_tasks")

/-- `markTaskCompleted`: append the task id to the per-course list only
when it is not already present. -/
def markTaskCompleted (store : Store) (courseId taskId : String) : Store :=
  let completedKey := "course_" ++ courseId ++ "_completed_tasks"
  let completedTasks := store completedKey
  if completedTasks.contains taskId then store
  else fun k => if k = completedKey then completedTasks ++ [taskId] else store k

end Csv

namespace Learning

/-- Character-level state machine of `parseCSV` in `learning.ts`. It
differs from the csv module's parser in trimming every field when a row is
flushed and in only flushing a leftover row that is not a lone empty
field. Fuel works as in `Csv.parseCSVAux`. -/
def parseCSVAux : Nat → Bool → String → List String → List (List String) →
    List Char → List (List String)
  | _, _, currentField, currentRow, rows, [] =>
    let finalRow := currentRow ++ [currentField]
    if finalRow.length > 1 ∨ (finalRow.length = 1 ∧ finalRow.getD 0 "" ≠ "") then
      rows ++ [finalRow.map jsTrim]
    else rows
  | fuel + 1, insideQuotes, currentField, currentRow, rows, '"' :: rest =>
    if insideQuotes then
      match rest with
      | '"' :: rest2 =>
        parseCSVAux fuel insideQuotes (currentField.push '"') currentRow rows rest2
      | _ => parseCSVAux fuel (!insideQuotes) currentField currentRow rows rest
    else parseCSVAux fuel (!insideQuotes) currentField currentRow rows rest
  | fuel + 1, insideQuotes, currentField, currentRow, rows, ',' :: rest =>
    if insideQuotes then
      parseCSVAux fuel insideQuotes (currentField.push ',') currentRow rows rest
    else parseCSVAux fuel insideQuotes "" (currentRow ++ [currentField]) rows rest
  | fuel + 1, insideQuotes, currentField, currentRow, rows, '\r' :: rest =>
    if insideQuotes then
      parseCSVAux fuel insideQuotes (currentField.push '\r') currentRow rows rest
    else
      match rest with
      | '\n' :: rest2 =>
        parseCSVAux fuel insideQuotes "" []
          (rows ++ [(currentRow ++ [currentField]).map jsTrim]) rest2
      | _ =>
        parseCSVAux fuel insideQuotes "" []
          (rows ++ [(currentRow ++ [currentField]).map jsTrim]) rest
  | fuel + 1, insideQuotes, currentField, currentRow, rows, '\n' :: rest =>
    if insideQuotes then
      parseCSVAux fuel insideQuotes (currentField.push '\n') currentRow rows rest
    else
      parseCSVAux fuel insideQuotes "" []
        (rows ++ [(currentRow ++ [currentField]).map jsTrim]) rest
  | fuel + 1, insideQuotes, currentField, currentRow, rows, c :: rest =>
    parseCSVAux fuel insideQuotes (currentField.push c) currentRow rows rest
  | 0, _, currentField, currentRow, rows, _ :: _ =>
    let finalRow := currentRow ++ [currentField]
    if finalRow.length > 1 ∨ (finalRow.length = 1 ∧ finalRow.getD 0 "" ≠ "") then
      rows ++ [finalRow.map jsTrim]
    else rows

/-- Same trailing-empty-row cleanup as the csv module. -/
def trimTrailingEmptyRows (rows : List (List String)) : List (List String) :=
  (rows.reverse.dropWhile (fun r => r == [""])).reverse

/-- The normalisation step of `parseCSV` in `learning.ts`: every row
shorter than the longest row is right-padded with empty-string fields. -/
def normalizeRows (rows : List (List String)) : List (List String) :=
  let maxCols := rows.foldl (fun m r => max m r.length) 0
  rows.map (fun r =>
    if r.length < maxCols then r ++ List.replicate (maxCols - r.length) "" else r)

/-- `parseCSV` of `learning.ts`: empty input gives no rows; otherwise
strip a BOM, run the machine, trim trailing empty rows, then pad. -/
def parseCSV (csvText : String) : List (List String) :=
  if csvText = "" then []
  else
    let cs := match csvText.data with
      | c :: rest => if c = '\uFEFF' then rest else c :: rest
      | [] => []
    normalizeRows (trimTrailingEmptyRows (parseCSVAux cs.length false "" [] [] cs))

/-- The `QuizRow` interface; optional string fields are modelled with the
empty string as the `?? ''` default `parseQuizRows` supplies. -/
structure QuizRow where
  courseId : String
  chapterId : String
  lessonId : String
  topicId : String
  questionId : String
  question : String
  optionA : String
  optionB : String
  optionC : String
  optionD : String
  options : String
  correctOption : String
  deriving Inhabited

/-- The `QuizQuestion` interface. -/
structure QuizQuestion where
  id : String
  question : String
  options : List String
  correctIndex : Nat
  lessonId : String
  topicId : String
  deriving Inhabited

/-- The `replace(/\r?\n|\r/g, ' ')` newline collapse of `organizeQuiz`. -/
def collapseNewlines : List Char → List Char
  | [] => []
  | '\r' :: '\n' :: rest => ' ' :: collapseNewlines rest
  | '\r' :: rest => ' ' :: collapseNewlines rest
  | '\n' :: rest => ' ' :: collapseNewlines rest
  | c :: rest => c :: collapseNewlines rest

/-- The `replace(/^([A-D]\)|[A-D]\.)\s*/i, '')` option-marker strip. -/
def stripOptionMarker (s : String) : String :=
  match s.data with
  | c :: p :: rest =>
    if ("ABCDabcd".data.contains c) ∧ (p = ')' ∨ p = '.') then
      String.mk (rest.dropWhile Char.isWhitespace)
    else s
  | _ => s

/-- One question of `organizeQuiz`. `freshSuffix` stands for the
`Math.random().toString(36).slice(2, 9)` suffix used when the row has no
`questionId` (the only impure part of the function). -/
def organizeQuizRow (freshSuffix : String) (row : QuizRow) : QuizQuestion :=
  let options :=
    if jsTrim row.options ≠ "" then
      ((jsSplit '|' (String.mk (collapseNewlines row.options.data))).map
        (fun opt => stripOptionMarker (jsTrim opt))).filter (fun s => s ≠ "")
    else
      ([row.optionA, row.optionB, row.optionC, row.optionD].map
        jsTrim).filter (fun s => s ≠ "")
  let correctLetter := jsToUpper (jsTrim row.correctOption)
  let idx := (["A", "B", "C", "D"] : List String).indexOf correctLetter
  { id :=
      if row.questionId ≠ "" then row.questionId
      else (if row.lessonId ≠ "" then row.lessonId else "lesson") ++ "_" ++ freshSuffix
    question := row.question
    options := options
    correctIndex := if idx < 4 then idx else 0
    lessonId := row.lessonId
    topicId := row.topicId }

def organizeQuizAux (fresh : Nat → String) : Nat → List QuizRow → List QuizQuestion
  | _, [] => []
  | i, row :: rest => organizeQuizRow (fresh i) row :: organizeQuizAux fresh (i + 1) rest

/-- `organizeQuiz`: map every quiz row to a question (the duplicate-id
`console.warn` bookkeeping does not change the returned list and is not
modelled). -/
def organizeQuiz (fresh : Nat → String) (quizRows : List QuizRow) : List QuizQuestion :=
  organizeQuizAux fresh 0 quizRows

/-- `getWatchedTopics`: read the per-lesson watched-topic list. -/
def getWatchedTopics (store : Store) (lessonId : String) : List String :=
  store ("lesson_" ++ lessonId ++ "_watchedTopics")

/-- `markTopicWatched`: append the topic id to the per-lesson list only
when it is not already present. -/
def markTopicWatched (store : Store) (lessonId topicId : String) : Store :=
  let watched := getWatchedTopics store lessonId
  if watched.contains topicId then store
  else fun k =>
    if k = "lesson_" ++ lessonId ++ "_watchedTopics" then watched ++ [topicId] else store k

end Learning

namespace LessonUnlock

/-- `isChapterUnlocked`: at least one of the supplied lessons (objects
with an `id`, as the chapter page passes them) must be unlocked; the
chapter number argument is not consulted. -/
def isChapterUnlocked (schedule : List (String × Int)) (chapterNumber : Nat)
    (lessons : List Csv.Lesson) (currentDate : Int) : Bool :=
  lessons.any (fun lesson => (isLessonUnlockedById schedule lesson.id currentDate).result)

end LessonUnlock

namespace ChapterPage

/-- The `[...new Set(list)]` deduplication (first occurrence kept,
insertion order preserved), with the already-seen ids accumulated. -/
def jsSetDedupAux (seen : List String) : List String → List String
  | [] => []
  | x :: xs =>
    if seen.contains x then jsSetDedupAux seen xs
    else x :: jsSetDedupAux (x :: seen) xs

def jsSetDedup (l : List String) : List String := jsSetDedupAux [] l

/-- `getLessonCompletedTasks`: union the durable and session completed-id
lists, then keep only ids of tasks belonging to the lesson. -/
def getLessonCompletedTasks (localTasks sessionTasks : List String)
    (lesson : Csv.Lesson) : List String :=
  let allCompletedTasks := jsSetDedup (localTasks ++ sessionTasks)
  let lessonTaskIds := lesson.tasks.map Csv.Task.id
  allCompletedTasks.filter (fun taskId => lessonTaskIds.contains taskId)

/-- The `isLessonFullyComplete` closure of the chapter page:
`learningDoneFlag` is the per-lesson `learningDone` localStorage flag,
`hasLearningContent` is `lessonHasLearning[lesson.id]` (whether topics
exist for the lesson). -/
def isLessonFullyComplete (lesson : Csv.Lesson)
    (localTasks sessionTasks completedLessonsList : List String)
    (learningDoneFlag hasLearningContent : Bool) : Bool :=
  let lessonCompletedTasks := getLessonCompletedTasks localTasks sessionTasks lesson
  let lessonProgress := Csv.calculateProgress lesson.tasks lessonCompletedTasks
  let hasTasks := decide (0 < lesson.tasks.length)
  let learningDone := learningDoneFlag || completedLessonsList.contains lesson.id
  let hasLearning := hasLearningContent || learningDone
  if hasTasks && hasLearning then
    ((lessonProgress.completedTasks == lesson.tasks.length)
      && decide (0 < lesson.tasks.length)) || learningDone
  else if hasTasks then
    (lessonProgress.completedTasks == lesson.tasks.length)
      && decide (0 < lesson.tasks.length)
  else if hasLearning then
    completedLessonsList.contains lesson.id || learningDone
  else false

/-- The per-lesson `isComplete` body of the loop in
`computeLessonLevelCompletion`. Note that in the mixed branch the
learning side checks only `completedLessonsSet.has(lesson.id)`, not the
`learningDone` flag. -/
def lessonLevelIsComplete (lesson : Csv.Lesson)
    (localTasks sessionTasks completedLessonsList : List String)
    (learningDoneFlag hasLearningContent : Bool) : Bool :=
  let hasTasks := decide (0 < lesson.tasks.length)
  let learningDone := learningDoneFlag || completedLessonsList.contains lesson.id
  let hasLearning := hasLearningContent || learningDone
  if hasTasks && hasLearning then
    (let completedTasks := getLessonCompletedTasks localTasks sessionTasks lesson
     ((completedTasks.length == lesson.tasks.length)
       && decide (0 < lesson.tasks.length))
       || completedLessonsList.contains lesson.id)
  else if hasTasks then
    (let completedTasks := getLessonCompletedTasks localTasks sessionTasks lesson
     (completedTasks.length == lesson.tasks.length)
       && decide (0 < lesson.tasks.length))
  else if hasLearning then completedLessonsList.contains lesson.id
  else false

/-- `computeLessonLevelCompletion`: count the lessons of the chapter that
the per-lesson body accepts; returns
(completedLessonCount, totalLessonCount, percentage). -/
def computeLessonLevelCompletion (lessons : List Csv.Lesson)
    (localTasks sessionTasks completedLessonsList : List String)
    (learningDoneFlagOf hasLearningContentOf : String → Bool) : Nat × Nat × ℚ :=
  let totalLessonCount := lessons.length
  let completedLessonCount := lessons.countP (fun lesson =>
    lessonLevelIsComplete lesson localTasks sessionTasks completedLessonsList
      (learningDoneFlagOf lesson.id) (hasLearningContentOf lesson.id))
  let percentage :=
    if totalLessonCount = 0 then 0
    else ((completedLessonCount : ℚ) / (totalLessonCount : ℚ)) * 100
  (completedLessonCount, totalLessonCount, percentage)

end ChapterPage

/-! ## Concrete sample data used to instantiate theorems -/

/-- A one-task sample used to instantiate the progress calculator. -/
def sampleTask : Csv.Task :=
  { id := "t1", title := "T", scenario := "", lessonId := "l1", chapterId := "c1",
    courseId := "k1", resources := { pdfs := [], forms := [], answerKey := "" },
    xp := 10, instructions := none }

/-- A one-task mixed lesson (it has tasks, and the completion arguments
supply learning content) used to probe the completion logic. -/
def mixTask : Csv.Task :=
  { id := "mt1", title := "M", scenario := "", lessonId := "ml1", chapterId := "c1",
    courseId := "k1", resources := { pdfs := [], forms := [], answerKey := "" },
    xp := 5, instructions := none }

def mixLesson : Csv.Lesson :=
  { id := "ml1", name := "Mixed", chapterId := "c1", courseId := "k1", tasks := [mixTask] }

/-- A sample quiz row whose correct option is the letter B with stray
whitespace and lower case. -/
def bQuizRow : Learning.QuizRow :=
  { courseId := "k1", chapterId := "c1", lessonId := "L1", topicId := "p1",
    questionId := "q1", question := "which", optionA := "x", optionB := "y",
    optionC := "", optionD := "", options := "", correctOption := "b " }

/-! ## General helper lemmas -/

theorem contains_eq_decide_mem (l : List String) (a : String) :
    l.contains a = decide (a ∈ l) :=
  List.elem_eq_mem a l

theorem chainLtB_iff_chain' : ∀ l : List Int,
    LessonUnlock.chainLtB l = true ↔ List.Chain' (· < ·) l
  | [] => by simp [LessonUnlock.chainLtB]
  | [_] => by simp [LessonUnlock.chainLtB]
  | a :: b :: rest => by
    simp [LessonUnlock.chainLtB, List.chain'_cons, chainLtB_iff_chain' (b :: rest)]

/-! ## Claim theorems for the unlock scheduler -/

/-- C2: in the generated unlock schedule over the hard-coded lesson
enumeration (120 lessons: 9 in chapter 1, 10 in chapters 2-12 except 11 in
chapter 5), consecutive unlock dates strictly increase, no lesson after
the first unlocks on a Sunday, and with course start date 2025-07-24 the
first two lessons are `les_1_1` on 2025-07-24 and `les_1_2` on
2025-07-25. -/
theorem generateUnlockSchedule_monotone_no_sunday :
    List.Chain' (· < ·)
        ((LessonUnlock.generateUnlockSchedule LessonUnlock.courseStartDay).map Prod.snd)
    ∧ ((LessonUnlock.generateUnlockSchedule LessonUnlock.courseStartDay).drop 1).all
        (fun p => LessonUnlock.dayOfWeek p.2 != 0) = true
    ∧ (LessonUnlock.generateUnlockSchedule LessonUnlock.courseStartDay).length = 120
    ∧ (LessonUnlock.generateUnlockSchedule LessonUnlock.courseStartDay).take 2
        = [("les_1_1", LessonUnlock.daysFromCivil 2025 7 24),
           ("les_1_2", LessonUnlock.daysFromCivil 2025 7 25)] :=
  ⟨(chainLtB_iff_chain' _).mp (by decide), by decide, by decide, by decide⟩

/-- C4: for a lesson id present in the generated schedule, the unlock
check is true exactly when the reference day is on or after the lesson's
unlock day (dates being modelled at day granularity, matching the
midnight truncation in the code); in particular `les_1_1` is unlocked on
the course start date, and `les_1_2` is locked on the start date and
unlocked the next day. -/
theorem isLessonUnlockedById_iff_day_reached :
    (∀ (lessonId : String) (unlockDate currentDate : Int),
        (LessonUnlock.generateUnlockSchedule LessonUnlock.courseStartDay).lookup lessonId
            = some unlockDate →
        ((LessonUnlock.isLessonUnlockedById
            (LessonUnlock.generateUnlockSchedule LessonUnlock.courseStartDay)
            lessonId currentDate).result = true
          ↔ unlockDate ≤ currentDate))
    ∧ (LessonUnlock.isLessonUnlockedById
        (LessonUnlock.generateUnlockSchedule LessonUnlock.courseStartDay)
        "les_1_1" LessonUnlock.courseStartDay).result = true
    ∧ (LessonUnlock.isLessonUnlockedById
        (LessonUnlock.generateUnlockSchedule LessonUnlock.courseStartDay)
        "les_1_2" LessonUnlock.courseStartDay).result = false
    ∧ (LessonUnlock.isLessonUnlockedById
        (LessonUnlock.generateUnlockSchedule LessonUnlock.courseStartDay)
        "les_1_2" (LessonUnlock.courseStartDay + 1)).result = true := by
  refine ⟨?_, by decide, by decide, by decide⟩
  intro lessonId unlockDate currentDate h
  simp [LessonUnlock.isLessonUnlockedById, h]

/-- Witness for C4: instantiated at `les_1_3`, whose unlock day is two
days after the course start. -/
theorem isLessonUnlockedById_iff_day_reached_witness :
    ((LessonUnlock.isLessonUnlockedById
        (LessonUnlock.generateUnlockSchedule LessonUnlock.courseStartDay)
        "les_1_3" (LessonUnlock.courseStartDay + 2)).result = true
      ↔ LessonUnlock.courseStartDay + 2 ≤ LessonUnlock.courseStartDay + 2) :=
  isLessonUnlockedById_iff_day_reached.1 "les_1_3"
    (LessonUnlock.courseStartDay + 2) (LessonUnlock.courseStartDay + 2) (by decide)

/-- C5: a lesson id that is not a key of the generated schedule is
treated as unlocked unconditionally (fail-open), and a diagnostic warning
is emitted. -/
theorem isLessonUnlockedById_fail_open :
    ∀ (lessonId : String) (currentDate : Int),
      (LessonUnlock.generateUnlockSchedule LessonUnlock.courseStartDay).lookup lessonId = none →
      (LessonUnlock.isLessonUnlockedById
          (LessonUnlock.generateUnlockSchedule LessonUnlock.courseStartDay)
          lessonId currentDate).result = true
      ∧ (LessonUnlock.isLessonUnlockedById
          (LessonUnlock.generateUnlockSchedule LessonUnlock.courseStartDay)
          lessonId currentDate).warnings ≠ [] := by
  intro lessonId currentDate h
  simp [LessonUnlock.isLessonUnlockedById, h]

/-- Witness for C5: `les_0_1` is outside the hard-coded enumeration. -/
theorem isLessonUnlockedById_fail_open_witness :
    (LessonUnlock.isLessonUnlockedById
        (LessonUnlock.generateUnlockSchedule LessonUnlock.courseStartDay)
        "les_0_1" 0).result = true
    ∧ (LessonUnlock.isLessonUnlockedById
        (LessonUnlock.generateUnlockSchedule LessonUnlock.courseStartDay)
        "les_0_1" 0).warnings ≠ [] :=
  isLessonUnlockedById_fail_open "les_0_1" 0 (by decide)

/-- C9: a chapter is unlocked exactly when at least one of the supplied
lessons is unlocked as of the reference date; an empty lesson list gives
false, and the chapter number argument is irrelevant to the result. -/
theorem isChapterUnlocked_iff_some_lesson :
    ∀ (schedule : List (String × Int)) (chapterNumber : Nat)
      (lessons : List Csv.Lesson) (currentDate : Int),
      (LessonUnlock.isChapterUnlocked schedule chapterNumber lessons currentDate = true
        ↔ ∃ lesson ∈ lessons,
            (LessonUnlock.isLessonUnlockedById schedule lesson.id currentDate).result = true)
      ∧ LessonUnlock.isChapterUnlocked schedule chapterNumber [] currentDate = false
      ∧ (∀ other : Nat,
          LessonUnlock.isChapterUnlocked schedule chapterNumber lessons currentDate
            = LessonUnlock.isChapterUnlocked schedule other lessons currentDate) := by
  intro schedule chapterNumber lessons currentDate
  refine ⟨?_, rfl, fun _ => rfl⟩
  simp [LessonUnlock.isChapterUnlocked, List.any_eq_true]

/-! ## Claim theorems for the progress calculator -/

theorem foldl_add_xp (l : List Csv.Task) (init : Int) :
    l.foldl (fun sum task => sum + task.xp) init = init + (l.map Csv.Task.xp).sum := by
  induction l generalizing init with
  | nil => simp
  | cons t ts ih => simp [ih]; ring

/-- C1: `calculateProgress` counts exactly the tasks of the given list
whose id occurs in the completed-id list (so the count never exceeds the
list length), earns exactly the XP of those tasks, and ignores completed
ids that belong to no task of the list. -/
theorem calculateProgress_counts_only_given_tasks :
    ∀ (tasks : List Csv.Task) (completedIds : List String),
      ((Csv.calculateProgress tasks completedIds).completedTasks
          = tasks.countP (fun t => decide (t.id ∈ completedIds)))
      ∧ (Csv.calculateProgress tasks completedIds).completedTasks ≤ tasks.length
      ∧ ((Csv.calculateProgress tasks completedIds).earnedXP
          = ((tasks.filter (fun t => decide (t.id ∈ completedIds))).map Csv.Task.xp).sum)
      ∧ ∀ extra : List String,
          (∀ e ∈ extra, ∀ t ∈ tasks, t.id ≠ e) →
          Csv.calculateProgress tasks (completedIds ++ extra)
            = Csv.calculateProgress tasks completedIds := by
  intro tasks completedIds
  have hcon : ∀ t ∈ tasks, completedIds.contains t.id = decide (t.id ∈ completedIds) :=
    fun t _ => contains_eq_decide_mem completedIds t.id
  refine ⟨?_, ?_, ?_, ?_⟩
  · simp only [Csv.calculateProgress]
    rw [List.countP_eq_length_filter]
    exact congrArg List.length (List.filter_congr hcon)
  · simp only [Csv.calculateProgress]
    exact List.length_filter_le _ _
  · simp only [Csv.calculateProgress]
    rw [foldl_add_xp, List.filter_congr hcon]
    simp
  · intro extra hextra
    have hfil : tasks.filter (fun task => (completedIds ++ extra).contains task.id)
        = tasks.filter (fun task => completedIds.contains task.id) := by
      apply List.filter_congr
      intro t ht
      have hni : t.id ∉ extra := fun hmem => hextra t.id hmem t ht rfl
      rw [contains_eq_decide_mem, contains_eq_decide_mem]
      simp [List.mem_append, hni]
    simp only [Csv.calculateProgress, hfil]

/-- Witness for C1: a stray completed id `zz` belonging to no task leaves
the statistics unchanged. -/
theorem calculateProgress_counts_only_given_tasks_witness :
    Csv.calculateProgress [sampleTask] (["t1"] ++ ["zz"])
      = Csv.calculateProgress [sampleTask] ["t1"] :=
  (calculateProgress_counts_only_given_tasks [sampleTask] ["t1"]).2.2.2 ["zz"] (by decide)

/-! ## Claim theorems for the persisted completion lists -/

/-- C10: `markTaskCompleted` preserves duplicate-freeness of the stored
per-course completed-task list, appends the id exactly once when absent,
and is idempotent; `markTopicWatched` enjoys the same three properties
over the per-lesson watched-topic list. -/
theorem markCompleted_set_semantics :
    (∀ (store : Store) (courseId taskId : String),
        (store ("course_" ++ courseId ++ "_completed_tasks")).Nodup →
        (Csv.markTaskCompleted store courseId taskId
            ("course_" ++ courseId ++ "_completed_tasks")).Nodup)
    ∧ (∀ (store : Store) (courseId taskId : String),
        taskId ∉ store ("course_" ++ courseId ++ "_completed_tasks") →
        Csv.markTaskCompleted store courseId taskId ("course_" ++ courseId ++ "_completed_tasks")
          = store ("course_" ++ courseId ++ "_completed_tasks") ++ [taskId])
    ∧ (∀ (store : Store) (courseId taskId : String),
        Csv.markTaskCompleted (Csv.markTaskCompleted store courseId taskId) courseId taskId
          = Csv.markTaskCompleted store courseId taskId)
    ∧ (∀ (store : Store) (lessonId topicId : String),
        (store ("lesson_" ++ lessonId ++ "_watchedTopics")).Nodup →
        (Learning.markTopicWatched store lessonId topicId
            ("lesson_" ++ lessonId ++ "_watchedTopics")).Nodup)
    ∧ (∀ (store : Store) (lessonId topicId : String),
        topicId ∉ store ("lesson_" ++ lessonId ++ "_watchedTopics") →
        Learning.markTopicWatched store lessonId topicId
            ("lesson_" ++ lessonId ++ "_watchedTopics")
          = store ("lesson_" ++ lessonId ++ "_watchedTopics") ++ [topicId])
    ∧ (∀ (store : Store) (lessonId topicId : String),
        Learning.markTopicWatched (Learning.markTopicWatched store lessonId topicId)
            lessonId topicId
          = Learning.markTopicWatched store lessonId topicId) := by
  refine ⟨?_, ?_, ?_, ?_, ?_, ?_⟩
  · intro store courseId taskId hnd
    by_cases hm : taskId ∈ store ("course_" ++ courseId ++ "_completed_tasks")
    · simpa [Csv.markTaskCompleted, hm] using hnd
    · simp [Csv.markTaskCompleted, hm, List.nodup_append, hnd, List.disjoint_singleton]
  · intro store courseId taskId hmem
    simp [Csv.markTaskCompleted, hmem]
  · intro store courseId taskId
    by_cases hm : taskId ∈ store ("course_" ++ courseId ++ "_completed_tasks")
    · simp [Csv.markTaskCompleted, hm]
    · simp [Csv.markTaskCompleted, hm]
  · intro store lessonId topicId hnd
    by_cases hm : topicId ∈ store ("lesson_" ++ lessonId ++ "_watchedTopics")
    · simpa [Learning.markTopicWatched, Learning.getWatchedTopics, hm] using hnd
    · simp [Learning.markTopicWatched, Learning.getWatchedTopics, hm,
        List.nodup_append, hnd, List.disjoint_singleton]
  · intro store lessonId topicId hmem
    simp [Learning.markTopicWatched, Learning.getWatchedTopics, hmem]
  · intro store lessonId topicId
    by_cases hm : topicId ∈ store ("lesson_" ++ lessonId ++ "_watchedTopics")
    · simp [Learning.markTopicWatched, Learning.getWatchedTopics, hm]
    · simp [Learning.markTopicWatched, Learning.getWatchedTopics, hm]

/-- Witness for C10: on an empty store the task id `t1` is recorded once
without creating duplicates, and likewise for a watched topic. -/
theorem markCompleted_set_semantics_witness :
    (Csv.markTaskCompleted (fun _ => []) "c1" "t1"
        ("course_" ++ "c1" ++ "_completed_tasks")).Nodup
    ∧ Csv.markTaskCompleted (fun _ => []) "c1" "t1" ("course_" ++ "c1" ++ "_completed_tasks")
        = (fun _ => ([] : List String)) ("course_" ++ "c1" ++ "_completed_tasks") ++ ["t1"]
    ∧ (Learning.markTopicWatched (fun _ => []) "l1" "p1"
        ("lesson_" ++ "l1" ++ "_watchedTopics")).Nodup
    ∧ Learning.markTopicWatched (fun _ => []) "l1" "p1" ("lesson_" ++ "l1" ++ "_watchedTopics")
        = (fun _ => ([] : List String)) ("lesson_" ++ "l1" ++ "_watchedTopics") ++ ["p1"] :=
  ⟨markCompleted_set_semantics.1 (fun _ => []) "c1" "t1" (by simp),
   markCompleted_set_semantics.2.1 (fun _ => []) "c1" "t1" (by simp),
   markCompleted_set_semantics.2.2.2.1 (fun _ => []) "l1" "p1" (by simp),
   markCompleted_set_semantics.2.2.2.2.1 (fun _ => []) "l1" "p1" (by simp)⟩

/-! ## Claim theorems for lesson completion -/

theorem mem_jsSetDedupAux (a : String) :
    ∀ (l seen : List String), a ∈ ChapterPage.jsSetDedupAux seen l ↔ a ∈ l ∧ a ∉ seen := by
  intro l
  induction l with
  | nil => intro seen; simp [ChapterPage.jsSetDedupAux]
  | cons x xs ih =>
    intro seen
    by_cases hx : x ∈ seen
    · simp only [ChapterPage.jsSetDedupAux]
      simp [hx, ih]
      aesop
    · have hcond : ¬(seen.contains x = true) := by
        rw [contains_eq_decide_mem]; simpa using hx
      simp only [ChapterPage.jsSetDedupAux, if_neg hcond]
      constructor
      · intro hmem
        rcases List.mem_cons.mp hmem with rfl | hmem2
        · exact ⟨List.mem_cons_self _ _, hx⟩
        · obtain ⟨h1, h2⟩ := (ih (x :: seen)).mp hmem2
          exact ⟨List.mem_cons_of_mem _ h1, fun hs => h2 (List.mem_cons_of_mem _ hs)⟩
      · rintro ⟨h1, h2⟩
        by_cases hax : a = x
        · subst hax
          exact List.mem_cons_self _ _
        · rcases List.mem_cons.mp h1 with heq | h1b
          · exact absurd heq hax
          · exact List.mem_cons_of_mem _ ((ih (x :: seen)).mpr
              ⟨h1b, fun hs => (List.mem_cons.mp hs).elim hax h2⟩)

theorem nodup_jsSetDedupAux :
    ∀ (l seen : List String), (ChapterPage.jsSetDedupAux seen l).Nodup := by
  intro l
  induction l with
  | nil => intro seen; simp [ChapterPage.jsSetDedupAux]
  | cons x xs ih =>
    intro seen
    by_cases hx : x ∈ seen
    · simp [ChapterPage.jsSetDedupAux, hx, ih]
    · have hx2 : x ∉ ChapterPage.jsSetDedupAux (x :: seen) xs := by
        intro hmem
        exact ((mem_jsSetDedupAux x xs (x :: seen)).mp hmem).2 (by simp)
      simp [ChapterPage.jsSetDedupAux, hx, List.nodup_cons, hx2, ih]

theorem mem_getLessonCompletedTasks (localTasks sessionTasks : List String)
    (lesson : Csv.Lesson) (a : String) :
    a ∈ ChapterPage.getLessonCompletedTasks localTasks sessionTasks lesson
      ↔ (a ∈ localTasks ∨ a ∈ sessionTasks) ∧ a ∈ lesson.tasks.map Csv.Task.id := by
  simp [ChapterPage.getLessonCompletedTasks, ChapterPage.jsSetDedup, List.mem_filter,
    mem_jsSetDedupAux, List.mem_append]

theorem nodup_getLessonCompletedTasks (localTasks sessionTasks : List String)
    (lesson : Csv.Lesson) :
    (ChapterPage.getLessonCompletedTasks localTasks sessionTasks lesson).Nodup := by
  simp only [ChapterPage.getLessonCompletedTasks, ChapterPage.jsSetDedup]
  exact (nodup_jsSetDedupAux _ _).filter _

theorem calculateProgress_completedTasks_eq_iff (lesson : Csv.Lesson)
    (localTasks sessionTasks : List String) :
    ((Csv.calculateProgress lesson.tasks
        (ChapterPage.getLessonCompletedTasks localTasks sessionTasks lesson)).completedTasks
      = lesson.tasks.length)
    ↔ ∀ t ∈ lesson.tasks, t.id ∈ localTasks ∨ t.id ∈ sessionTasks := by
  simp only [Csv.calculateProgress]
  rw [List.filter_length_eq_length]
  constructor
  · intro h t ht
    have h2 := h t ht
    rw [contains_eq_decide_mem] at h2
    simp only [decide_eq_true_eq] at h2
    exact ((mem_getLessonCompletedTasks _ _ _ _).mp h2).1
  · intro h t ht
    rw [contains_eq_decide_mem]
    simp only [decide_eq_true_eq]
    exact (mem_getLessonCompletedTasks _ _ _ _).mpr
      ⟨h t ht, List.mem_map_of_mem _ ht⟩

theorem getLessonCompletedTasks_length_iff (localTasks sessionTasks : List String)
    (lesson : Csv.Lesson) (hnd : (lesson.tasks.map Csv.Task.id).Nodup) :
    ((ChapterPage.getLessonCompletedTasks localTasks sessionTasks lesson).length
        = lesson.tasks.length)
    ↔ ∀ t ∈ lesson.tasks, t.id ∈ localTasks ∨ t.id ∈ sessionTasks := by
  have hlen : (lesson.tasks.map Csv.Task.id).length = lesson.tasks.length :=
    List.length_map _ _
  have hFnodup : (ChapterPage.getLessonCompletedTasks localTasks sessionTasks lesson).Nodup :=
    nodup_getLessonCompletedTasks _ _ _
  constructor
  · intro hlenF
    by_contra hcon
    push_neg at hcon
    obtain ⟨t, ht, hnin1, hnin2⟩ := hcon
    have hidmem : t.id ∈ lesson.tasks.map Csv.Task.id := List.mem_map_of_mem _ ht
    have hnotF : t.id ∉ ChapterPage.getLessonCompletedTasks localTasks sessionTasks lesson := by
      intro hmem
      rcases ((mem_getLessonCompletedTasks _ _ _ _).mp hmem).1 with h | h
      · exact hnin1 h
      · exact hnin2 h
    have hsub2 : ChapterPage.getLessonCompletedTasks localTasks sessionTasks lesson
        ⊆ (lesson.tasks.map Csv.Task.id).erase t.id := by
      intro a ha
      have hain := ((mem_getLessonCompletedTasks _ _ _ _).mp ha).2
      have hne : a ≠ t.id := fun heq => hnotF (heq ▸ ha)
      exact (List.Nodup.mem_erase_iff hnd).mpr ⟨hne, hain⟩
    have hle := (List.subperm_of_subset hFnodup hsub2).length_le
    rw [List.length_erase_of_mem hidmem] at hle
    have hpos : 0 < (lesson.tasks.map Csv.Task.id).length :=
      List.length_pos.mpr (fun h0 => by rw [h0] at hidmem; simp at hidmem)
    omega
  · intro hall
    have hsub1 : ChapterPage.getLessonCompletedTasks localTasks sessionTasks lesson
        ⊆ lesson.tasks.map Csv.Task.id :=
      fun a ha => ((mem_getLessonCompletedTasks _ _ _ _).mp ha).2
    have hsub2 : lesson.tasks.map Csv.Task.id
        ⊆ ChapterPage.getLessonCompletedTasks localTasks sessionTasks lesson := by
      intro a ha
      obtain ⟨t, ht, rfl⟩ := List.mem_map.mp ha
      exact (mem_getLessonCompletedTasks _ _ _ _).mpr ⟨hall t ht, ha⟩
    have h1 := (List.subperm_of_subset hFnodup hsub1).length_le
    have h2 := (List.subperm_of_subset hnd hsub2).length_le
    omega

/-- C3 (amended): for a mixed lesson (non-empty task list, learning
content present), the chapter page's `isLessonFullyComplete` is true
exactly when all task ids are in the merged completed set, or the lesson
id is in the completed-lesson list, or the learning-done flag is set; the
per-lesson body of `computeLessonLevelCompletion` however accepts the
learning path only through the completed-lesson list (the flag alone does
not count there), and `computeLessonLevelCompletion` counts exactly the
lessons its body accepts. -/
theorem lessonComplete_mixed_characterisation :
    (∀ (lesson : Csv.Lesson) (localTasks sessionTasks completedLessonsList : List String)
        (learningDoneFlag : Bool),
        lesson.tasks ≠ [] →
        (ChapterPage.isLessonFullyComplete lesson localTasks sessionTasks completedLessonsList
            learningDoneFlag true = true
          ↔ ((∀ t ∈ lesson.tasks, t.id ∈ localTasks ∨ t.id ∈ sessionTasks)
              ∨ lesson.id ∈ completedLessonsList ∨ learningDoneFlag = true)))
    ∧ (∀ (lesson : Csv.Lesson) (localTasks sessionTasks completedLessonsList : List String)
        (learningDoneFlag : Bool),
        lesson.tasks ≠ [] → (lesson.tasks.map Csv.Task.id).Nodup →
        (ChapterPage.lessonLevelIsComplete lesson localTasks sessionTasks completedLessonsList
            learningDoneFlag true = true
          ↔ ((∀ t ∈ lesson.tasks, t.id ∈ localTasks ∨ t.id ∈ sessionTasks)
              ∨ lesson.id ∈ completedLessonsList)))
    ∧ (∀ (lessons : List Csv.Lesson)
        (localTasks sessionTasks completedLessonsList : List String)
        (learningDoneFlagOf hasLearningContentOf : String → Bool),
        (ChapterPage.computeLessonLevelCompletion lessons localTasks sessionTasks
            completedLessonsList learningDoneFlagOf hasLearningContentOf).1
          = lessons.countP (fun lesson =>
              ChapterPage.lessonLevelIsComplete lesson localTasks sessionTasks
                completedLessonsList (learningDoneFlagOf lesson.id)
                (hasLearningContentOf lesson.id))) := by
  refine ⟨?_, ?_, fun _ _ _ _ _ _ => rfl⟩
  · intro lesson localTasks sessionTasks completedLessonsList learningDoneFlag hne
    have hpos : 0 < lesson.tasks.length := List.length_pos.mpr hne
    have hdec : decide (0 < lesson.tasks.length) = true := by simpa using hpos
    simp only [ChapterPage.isLessonFullyComplete, hdec, Bool.true_and, Bool.and_true,
      Bool.true_or, if_true, Bool.or_eq_true, beq_iff_eq]
    rw [calculateProgress_completedTasks_eq_iff, contains_eq_decide_mem]
    simp only [decide_eq_true_eq]
    tauto
  · intro lesson localTasks sessionTasks completedLessonsList learningDoneFlag hne hnd
    have hpos : 0 < lesson.tasks.length := List.length_pos.mpr hne
    have hdec : decide (0 < lesson.tasks.length) = true := by simpa using hpos
    simp only [ChapterPage.lessonLevelIsComplete, hdec, Bool.true_and, Bool.and_true,
      Bool.true_or, if_true, Bool.or_eq_true, beq_iff_eq]
    rw [getLessonCompletedTasks_length_iff _ _ _ hnd, contains_eq_decide_mem]
    simp only [decide_eq_true_eq]

/-- Counterexample for C3 as frozen: for the one-task mixed lesson with
no tasks completed, an empty completed-lesson list and the learning-done
flag set, the claimed characterisation says the lesson is complete
(learning is done via the flag), and `isLessonFullyComplete` indeed
returns true, but the per-lesson predicate of
`computeLessonLevelCompletion` counts it as not complete. -/
theorem lessonComplete_mixed_counterexample :
    (ChapterPage.computeLessonLevelCompletion [mixLesson] [] [] []
        (fun _ => true) (fun _ => true)).1 = 0
    ∧ ChapterPage.isLessonFullyComplete mixLesson [] [] [] true true = true := by
  constructor <;> rfl

/-- Witness for C3: the amended characterisation instantiated at the
one-task mixed lesson with its task completed in the durable store. -/
theorem lessonComplete_mixed_witness :
    (ChapterPage.isLessonFullyComplete mixLesson ["mt1"] [] [] false true = true
      ↔ ((∀ t ∈ mixLesson.tasks, t.id ∈ (["mt1"] : List String) ∨ t.id ∈ ([] : List String))
          ∨ mixLesson.id ∈ ([] : List String) ∨ false = true))
    ∧ (ChapterPage.lessonLevelIsComplete mixLesson ["mt1"] [] [] false true = true
      ↔ ((∀ t ∈ mixLesson.tasks, t.id ∈ (["mt1"] : List String) ∨ t.id ∈ ([] : List String))
          ∨ mixLesson.id ∈ ([] : List String))) :=
  ⟨lessonComplete_mixed_characterisation.1 mixLesson ["mt1"] [] [] false (by decide),
   lessonComplete_mixed_characterisation.2.1 mixLesson ["mt1"] [] [] false
     (by decide) (by decide)⟩

/-! ## Claim theorems for the task-row parser -/

theorem objGet_eq_some_mem :
    ∀ (obj : List (String × Csv.JsVal)) (key : String) (v : Csv.JsVal),
      Csv.objGet obj key = some v → (key, v) ∈ obj := by
  intro obj key v h
  unfold Csv.objGet at h
  cases hl : (obj.filter (fun p => p.1 == key)).getLast? with
  | none => rw [hl] at h; simp at h
  | some p =>
    rw [hl] at h
    simp only [Option.map_some', Option.some.injEq] at h
    have hmem := List.mem_of_getLast?_eq_some hl
    have hsplit := List.mem_filter.mp hmem
    have hkey : p.1 = key := by simpa using hsplit.2
    have hpair : (key, v) = p := by
      cases p
      simp only [Prod.mk.injEq]
      exact ⟨hkey.symm, h.symm⟩
    rw [hpair]
    exact hsplit.1

theorem mem_buildAssigns_xp :
    ∀ (headers row : List String) (n : Nat) (v : Csv.JsVal),
      ("xp", v) ∈ Csv.buildAssigns row n headers →
      ∃ j : Nat, v = Csv.JsVal.num (Csv.parseIntOr0 (row.getD j "")) := by
  intro headers
  induction headers with
  | nil => intro row n v h; simp [Csv.buildAssigns] at h
  | cons hd tl ih =>
    intro row n v h
    simp only [Csv.buildAssigns, List.mem_cons] at h
    rcases h with heq | hmem
    · obtain ⟨hk, hv⟩ := Prod.mk.injEq .. |>.mp heq
      refine ⟨n, ?_⟩
      rw [hv, if_pos hk.symm]
    · exact ih row (n + 1) v hmem

/-- C6 (amended): every `xp` value of a parsed task row is an integer
obtained by applying the `parseInt(value) || 0` coercion to some cell of
its source row, and a cell on which `parseInt` fails coerces to 0 — but
the value is not always non-negative, since a cell holding a negative
number parses to that negative integer. -/
theorem parseTaskRows_xp_from_parseInt :
    (∀ (csvData : List (List String)), ∀ task ∈ Csv.parseTaskRows csvData,
        ∀ v, Csv.objGet task "xp" = some v →
          ∃ row ∈ csvData.drop 1, ∃ j : Nat,
            v = Csv.JsVal.num (Csv.parseIntOr0 (row.getD j "")))
    ∧ (∀ s : String, Csv.jsParseInt s = none → Csv.parseIntOr0 s = 0) := by
  constructor
  · intro csvData task htask v hv
    cases csvData with
    | nil => simp [Csv.parseTaskRows] at htask
    | cons hd tl =>
      simp only [Csv.parseTaskRows, List.mem_map] at htask
      obtain ⟨row, hrow, rfl⟩ := htask
      refine ⟨row, by simpa using hrow, ?_⟩
      have hmem : ("xp", v) ∈ Csv.buildTask (hd.map jsTrim) row :=
        objGet_eq_some_mem _ _ _ hv
      have hmem2 : ("xp", v) ∈ Csv.buildAssigns row 0 (hd.map jsTrim) := by
        unfold Csv.buildTask at hmem
        by_cases hany : (Csv.buildAssigns row 0 (hd.map jsTrim)).any
            (fun p => p.1 == "instructions") = true
        · simpa [hany] using hmem
        · rw [if_neg hany] at hmem
          rcases List.mem_append.mp hmem with h | h
          · exact h
          · simp at h
      exact mem_buildAssigns_xp _ row 0 v hmem2
  · intro s h
    simp [Csv.parseIntOr0, h]

/-- Counterexample for C6 as frozen: the raw CSV text with an `xp` cell
holding `-5` produces a task row whose `xp` field is the negative integer
-5, so the parsed `xp` is not always non-negative. -/
theorem parseTaskRows_negative_xp_counterexample :
    Csv.objGet ((Csv.parseTaskRows (Csv.parseCSV "xp\n-5")).getD 0 []) "xp"
        = some (Csv.JsVal.num (-5))
    ∧ ¬((0 : Int) ≤ -5) := by
  decide

/-- Witness for C6: instantiated at the CSV text with `xp` cell `7`, and
at the unparsable cell `abc`. -/
theorem parseTaskRows_xp_from_parseInt_witness :
    (∃ row ∈ (Csv.parseCSV "xp\n7").drop 1, ∃ j : Nat,
        Csv.JsVal.num 7 = Csv.JsVal.num (Csv.parseIntOr0 (row.getD j "")))
    ∧ Csv.parseIntOr0 "abc" = 0 :=
  ⟨parseTaskRows_xp_from_parseInt.1 (Csv.parseCSV "xp\n7")
      ((Csv.parseTaskRows (Csv.parseCSV "xp\n7")).getD 0 []) (by decide)
      (Csv.JsVal.num 7) (by decide),
   parseTaskRows_xp_from_parseInt.2 "abc" (by decide)⟩

/-! ## Claim theorems for CSV row padding -/

theorem foldl_max_init_le :
    ∀ (l : List (List String)) (init : Nat),
      init ≤ l.foldl (fun m r => max m r.length) init := by
  intro l
  induction l with
  | nil => intro init; simp
  | cons r rs ih =>
    intro init
    simp only [List.foldl_cons]
    exact le_trans (Nat.le_max_left _ _) (ih (max init r.length))

theorem mem_le_foldl_max :
    ∀ (l : List (List String)) (init : Nat) (r : List String),
      r ∈ l → r.length ≤ l.foldl (fun m r => max m r.length) init := by
  intro l
  induction l with
  | nil => intro init r h; simp at h
  | cons x xs ih =>
    intro init r h
    simp only [List.foldl_cons]
    rcases List.mem_cons.mp h with rfl | h2
    · exact le_trans (Nat.le_max_right init r.length) (foldl_max_init_le xs _)
    · exact ih _ r h2

theorem length_mem_normalizeRows (rows : List (List String)) (r : List String)
    (h : r ∈ Learning.normalizeRows rows) :
    r.length = rows.foldl (fun m r => max m r.length) 0 := by
  simp only [Learning.normalizeRows, List.mem_map] at h
  obtain ⟨r0, hr0, rfl⟩ := h
  have hle := mem_le_foldl_max rows 0 r0 hr0
  by_cases hlt : r0.length < rows.foldl (fun m r => max m r.length) 0
  · rw [if_pos hlt]
    simp only [List.length_append, List.length_replicate]
    omega
  · rw [if_neg hlt]
    omega

theorem exists_mem_buildAssigns (row : List String) :
    ∀ (headers : List String) (n : Nat) (h : String), h ∈ headers →
      ∃ v, (h, v) ∈ Csv.buildAssigns row n headers := by
  intro headers
  induction headers with
  | nil => intro n h hm; simp at hm
  | cons hd tl ih =>
    intro n h hm
    rcases List.mem_cons.mp hm with rfl | hm2
    · exact ⟨_, List.mem_cons_self _ _⟩
    · obtain ⟨v, hv⟩ := ih (n + 1) h hm2
      exact ⟨v, List.mem_cons_of_mem _ hv⟩

/-- C7 (amended): the `learning.ts` parser pads every parsed row to one
common field count (the maximum over all rows, hence at least the header
row's count), so all rows of its result have equal length; the csv-module
parser leaves short rows unpadded (see the counterexample), but its
`parseTaskRows` reads a missing cell as the empty string — every header
yields a defined field on every row object it builds. -/
theorem parseCSV_row_length_uniform_and_safe_reads :
    (∀ (csvText : String), ∀ r1 ∈ Learning.parseCSV csvText,
        ∀ r2 ∈ Learning.parseCSV csvText, r1.length = r2.length)
    ∧ (∀ (headers row : List String) (h : String), h ∈ headers →
        Csv.objGet (Csv.buildTask headers row) h ≠ none)
    ∧ (∀ (hd : List String) (tl : List (List String)),
        Csv.parseTaskRows (hd :: tl) = tl.map (Csv.buildTask (hd.map jsTrim))) := by
  refine ⟨?_, ?_, fun _ _ => rfl⟩
  · intro csvText r1 h1 r2 h2
    by_cases he : csvText = ""
    · rw [he] at h1
      simp [Learning.parseCSV] at h1
    · simp only [Learning.parseCSV, if_neg he] at h1 h2
      rw [length_mem_normalizeRows _ _ h1, length_mem_normalizeRows _ _ h2]
  · intro headers row h hmem
    obtain ⟨v, hv⟩ := exists_mem_buildAssigns row headers 0 h hmem
    have hv2 : (h, v) ∈ Csv.buildTask headers row := by
      unfold Csv.buildTask
      by_cases hany : (Csv.buildAssigns row 0 headers).any
          (fun p => p.1 == "instructions") = true
      · simpa [hany] using hv
      · rw [if_neg hany]
        exact List.mem_append_left _ hv
    have hmf : (h, v) ∈ (Csv.buildTask headers row).filter (fun p => p.1 == h) :=
      List.mem_filter.mpr ⟨hv2, by simp⟩
    intro hnone
    simp only [Csv.objGet, Option.map_eq_none'] at hnone
    rw [List.getLast?_eq_none_iff] at hnone
    rw [hnone] at hmf
    simp at hmf

/-- Counterexample for C7 as frozen: the csv-module `parseCSV` does not
pad the short row of `"xp,a\n5"` — the parsed second row has fewer
fields than the header row. -/
theorem parseCSV_short_row_not_padded_counterexample :
    Csv.parseCSV "xp,a\n5" = [["xp", "a"], ["5"]]
    ∧ ((Csv.parseCSV "xp,a\n5").getD 1 []).length
        < ((Csv.parseCSV "xp,a\n5").getD 0 []).length := by
  decide

/-- Witness for C7: two rows of the padded learning-parser output of
`"a,b\nx,y,z\nw"` have the same length, and the header `xp` reads a
defined value on a one-cell row. -/
theorem parseCSV_row_length_uniform_witness :
    (["a", "b", ""] : List String).length = (["w", "", ""] : List String).length
    ∧ Csv.objGet (Csv.buildTask ["xp"] ["7"]) "xp" ≠ none :=
  ⟨parseCSV_row_length_uniform_and_safe_reads.1 "a,b\nx,y,z\nw"
      ["a", "b", ""] (by decide) ["w", "", ""] (by decide),
   parseCSV_row_length_uniform_and_safe_reads.2.1 ["xp"] ["7"] "xp" (by decide)⟩

/-! ## Claim theorems for quiz organisation -/

theorem organizeQuizAux_getD (fresh : Nat → String) :
    ∀ (rows : List Learning.QuizRow) (n i : Nat), i < rows.length →
      (Learning.organizeQuizAux fresh n rows).getD i default
        = Learning.organizeQuizRow (fresh (n + i)) (rows.getD i default) := by
  intro rows
  induction rows with
  | nil => intro n i h; simp at h
  | cons r rs ih =>
    intro n i h
    cases i with
    | zero => simp [Learning.organizeQuizAux]
    | succ j =>
      simp only [Learning.organizeQuizAux, List.getD_cons_succ]
      rw [ih (n + 1) j (by simpa using h)]
      have harith : n + 1 + j = n + (j + 1) := by omega
      rw [harith]

/-- C8: the question produced for the i-th quiz row carries the 0-based
index of its `correctOption` letter (after trimming and uppercasing) when
that letter is one of A-D, and index 0 for any other letter. -/
theorem organizeQuiz_correctIndex_mapping :
    ∀ (fresh : Nat → String) (rows : List Learning.QuizRow) (i : Nat),
      i < rows.length →
      ((Learning.organizeQuiz fresh rows).getD i default).correctIndex
        = (if jsToUpper (jsTrim (rows.getD i default).correctOption) = "A" then 0
           else if jsToUpper (jsTrim (rows.getD i default).correctOption) = "B" then 1
           else if jsToUpper (jsTrim (rows.getD i default).correctOption) = "C" then 2
           else if jsToUpper (jsTrim (rows.getD i default).correctOption) = "D" then 3
           else 0) := by
  intro fresh rows i h
  show ((Learning.organizeQuizAux fresh 0 rows).getD i default).correctIndex = _
  rw [organizeQuizAux_getD fresh rows 0 i h]
  generalize rows.getD i default = row
  simp only [Learning.organizeQuizRow]
  by_cases hA : jsToUpper (jsTrim row.correctOption) = "A"
  · rw [hA]; decide
  · by_cases hB : jsToUpper (jsTrim row.correctOption) = "B"
    · rw [hB]; decide
    · by_cases hC : jsToUpper (jsTrim row.correctOption) = "C"
      · rw [hC]; decide
      · by_cases hD : jsToUpper (jsTrim row.correctOption) = "D"
        · rw [hD]; decide
        · simp only [List.indexOf_cons, List.indexOf_nil, Bool.cond_eq_ite, beq_iff_eq]
          simp [hA, hB, hC, hD, Ne.symm hA, Ne.symm hB, Ne.symm hC, Ne.symm hD]

/-- Witness for C8: the sample row whose correct option is `"b "` maps to
index 1. -/
theorem organizeQuiz_correctIndex_mapping_witness :
    ((Learning.organizeQuiz (fun _ => "s") [bQuizRow]).getD 0 default).correctIndex
      = (if jsToUpper (jsTrim (([bQuizRow] : List Learning.QuizRow).getD 0
              default).correctOption) = "A" then 0
         else if jsToUpper (jsTrim (([bQuizRow] : List Learning.QuizRow).getD 0
              default).correctOption) = "B" then 1
         else if jsToUpper (jsTrim (([bQuizRow] : List Learning.QuizRow).getD 0
              default).correctOption) = "C" then 2
         else if jsToUpper (jsTrim (([bQuizRow] : List Learning.QuizRow).getD 0
              default).correctOption) = "D" then 3
         else 0) :=
  organizeQuiz_correctIndex_mapping (fun _ => "s") [bQuizRow] 0 (by decide)
